import Mathlib

/-!
Verification development for the fiql_parser repository.

The Python sources `operator.py`, `expression.py` and `parser.py` are embedded
shallowly.  Mutable Python objects linked by `parent` references and the
per-object `_working_fragment` pointer are modelled by a heap: a `List Node`
indexed by allocation order, with every object reference a `Nat` index.  Python
exceptions are modelled by `Except`; the unbounded recursion inside
`Expression.add_operator` is modelled with an explicit fuel argument standing
for the Python recursion limit (each call made by the parser starts from a
fresh, full stack, so the parser hands the same fuel to every call it makes).
-/

namespace Fiql

/-- FIQL logical operator values (`operator.py`, `OPERATOR_MAP` keys `;` and `,`). -/
inductive Op where
| opAnd
| opOr
deriving DecidableEq, Repr

/-- Precedence rank from `OPERATOR_MAP`: `; -> ('AND', 2)`, `, -> ('OR', 1)`. -/
def Op.rank : Op → Nat
| .opAnd => 2
| .opOr => 1

/-- Display name from `OPERATOR_MAP` (`Operator.to_python`). -/
def Op.pythonName : Op → String
| .opAnd => "AND"
| .opOr => "OR"

/-- The FIQL symbol (`Operator.__str__` returns `self.value`). -/
def Op.symbol : Op → String
| .opAnd => ";"
| .opOr => ","

/--
Exceptions.  `exceptions.py` is not under src/; modelled from the spec and the
imports in `expression.py` / `parser.py`: `objectErr` is `FiqlObjectException`,
`formatErr` is `FiqlFormatException` (both subclasses of `FiqlException`).
`indexErr` models the plain Python `IndexError` raised by `list.pop()` on an
empty list, and `recursionErr` models the Python `RecursionError` raised when
the interpreter recursion limit is exceeded; neither is a Fiql exception.
`attributeErr` models a Python `AttributeError` from accessing an
`Expression`-only attribute on a non-`Expression` value (unreachable in the
flows below, kept to make every heap access total).
-/
inductive FiqlErr where
| objectErr (msg : String)
| formatErr (msg : String)
| indexErr
| recursionErr
| attributeErr
deriving DecidableEq, Repr

/--
Values returned by `to_python`.  A Python 3-tuple `(selector, comparison,
argument)` is `pyTuple3`; a Python list `[op, child, ...]` is encoded as a
`pyCons` chain ending in `pyNil`; Python `None` is `pyNone` and a string is
`pyStr`.
-/
inductive PyVal where
| pyNone
| pyStr (s : String)
| pyTuple3 (a b c : PyVal)
| pyNil
| pyCons (hd tl : PyVal)
deriving DecidableEq, Repr

/-- Builds the `pyCons` chain encoding of a Python list. -/
def pyListOf : List PyVal → PyVal
| [] => .pyNil
| v :: vs => .pyCons v (pyListOf vs)

/--
Modelled from the spec (constraint.py is not under src/): the `Constraint`
leaf stores `selector`, `comparison`, `argument` and a parent link; the
comparisons handed to it by the parser always come from the comparison
lexical class, so construction-time validation never fires during parsing.
-/
structure ConstraintNode where
  selector : String
  comparison : Option String
  argument : Option String
  parent : Option Nat
deriving DecidableEq, Repr

/--
The `Expression` object state (`expression.py`): `parent` from
`BaseExpression`, `elements` and `operator`, and the transient
`_working_fragment` pointer `wf` (initialised to the object itself).  The
`_last_element` attribute set in `Expression.__init__` is never read anywhere
in the source, so it is omitted.
-/
structure ExprNode where
  parent : Option Nat
  elements : List Nat
  operator : Option Op
  wf : Nat
deriving DecidableEq, Repr

/-- A heap cell: either a `Constraint` or an `Expression` object. -/
inductive Node where
| constraintNode (c : ConstraintNode)
| exprNode (e : ExprNode)
deriving DecidableEq, Repr

/-- The object heap; an object reference is an index into this list. -/
abbrev Heap := List Node

/-- Reads an `Expression` object; `none` when the index is not an `Expression`. -/
def getExpr (h : Heap) (i : Nat) : Option ExprNode :=
  match h[i]? with
  | some (.exprNode e) => some e
  | _ => none

/-- Overwrites the `Expression` object at index `i`. -/
def setExpr (h : Heap) (i : Nat) (e : ExprNode) : Heap :=
  h.set i (.exprNode e)

/-- `Expression.__init__`: fresh node with no parent, no elements, no operator,
and `_working_fragment` pointing to itself. -/
def newExpression (h : Heap) : Heap × Nat :=
  (h ++ [.exprNode { parent := none, elements := [], operator := none, wf := h.length }],
   h.length)

/-- `Constraint.__init__` (modelled from the spec): fresh leaf with no parent. -/
def newConstraint (h : Heap) (sel : String) (comp arg : Option String) : Heap × Nat :=
  (h ++ [.constraintNode { selector := sel, comparison := comp, argument := arg,
                           parent := none }],
   h.length)

/-- The `parent` attribute of either node kind (`BaseExpression.parent`). -/
def nodeParent : Node → Option Nat
| .constraintNode c => c.parent
| .exprNode e => e.parent

/-- Writes the `parent` attribute of either node kind. -/
def nodeWithParent : Node → Option Nat → Node
| .constraintNode c, p => .constraintNode { c with parent := p }
| .exprNode e, p => .exprNode { e with parent := p }

/-- A printable type name for error messages mirroring Python class names. -/
def nodeTypeName : Option Node → String
| some (.constraintNode _) => "Constraint"
| some (.exprNode _) => "Expression"
| none => "NoneType"

/-- `BaseExpression.set_parent`: requires the parent to be an `Expression`,
else raises `FiqlObjectException`. -/
def set_parent (h : Heap) (child parentIdx : Nat) : Except FiqlErr Heap :=
  match h[parentIdx]? with
  | some (.exprNode _) =>
    match h[child]? with
    | some n => .ok (h.set child (nodeWithParent n (some parentIdx)))
    | none => .error .attributeErr
  | other => .error (.objectErr ("Parent must be of Expression not " ++ nodeTypeName other))

/-- `BaseExpression.get_parent`: requires `self.parent` to be an `Expression`,
else raises `FiqlObjectException` (in particular when the parent is `None`). -/
def get_parent (h : Heap) (i : Nat) : Except FiqlErr Nat :=
  match h[i]? with
  | none => .error .attributeErr
  | some n =>
    match nodeParent n with
    | some p =>
      match h[p]? with
      | some (.exprNode _) => .ok p
      | other => .error (.objectErr ("Parent must be of Expression not " ++ nodeTypeName other))
    | none => .error (.objectErr ("Parent must be of Expression not NoneType"))

/-- `Expression.has_constraint`: the number of elements of this `Expression`
(`none` models the `AttributeError` were `i` not an `Expression`). -/
def has_constraint (h : Heap) (i : Nat) : Option Nat :=
  (getExpr h i).map (fun e => e.elements.length)

/--
`Expression.add_element` restricted to `BaseExpression` arguments (the only
ones the embedded flows pass): sets the element's parent to
`self._working_fragment`, appends it to the working fragment's `elements`, and
returns `self`.
-/
def add_element (h : Heap) (selfIdx elemIdx : Nat) : Except FiqlErr (Heap × Nat) :=
  match getExpr h selfIdx with
  | none => .error .attributeErr
  | some se =>
    match set_parent h elemIdx se.wf with
    | .error e => .error e
    | .ok h1 =>
      match getExpr h1 se.wf with
      | none => .error .attributeErr
      | some we =>
        .ok (setExpr h1 se.wf { we with elements := we.elements ++ [elemIdx] }, selfIdx)

/-- `Expression.create_nested_expression`: allocate a fresh `Expression`, add
it as an element of `self` (hence parented to `self._working_fragment`), and
return the fresh node. -/
def create_nested_expression (h : Heap) (selfIdx : Nat) : Except FiqlErr (Heap × Nat) :=
  match add_element (newExpression h).1 selfIdx (newExpression h).2 with
  | .error e => .error e
  | .ok (h2, _) => .ok (h2, (newExpression h).2)

/--
`Expression.add_operator` (the precedence-folding core).  `fuel` models the
Python recursion limit; `0` fuel is the `RecursionError`.  Comparisons follow
Python: `operator > wf.operator` reflects to `wf.operator.__lt__(operator)`,
i.e. `wf.rank < op.rank`, and `operator < wf.operator` is `op.rank < wf.rank`.
-/
def add_operator : Nat → Heap → Nat → Op → Except FiqlErr (Heap × Nat)
| 0, _, _, _ => .error .recursionErr
| fuel + 1, h, selfIdx, op =>
  match getExpr h selfIdx with
  | none => .error .attributeErr
  | some se =>
    match getExpr h se.wf with
    | none => .error .attributeErr
    | some we =>
      match we.operator with
      | none => .ok (setExpr h se.wf { we with operator := some op }, selfIdx)
      | some cur =>
        if cur.rank < op.rank then
          match we.elements.getLast? with
          | none => .error .indexErr
          | some lastC =>
            match create_nested_expression
                (setExpr h se.wf { we with elements := we.elements.dropLast }) se.wf with
            | .error e => .error e
            | .ok (h2, sub) =>
              match getExpr h2 selfIdx with
              | none => .error .attributeErr
              | some se2 =>
                match add_element (setExpr h2 selfIdx { se2 with wf := sub }) sub lastC with
                | .error e => .error e
                | .ok (h4, _) =>
                  match add_operator fuel h4 sub op with
                  | .error e => .error e
                  | .ok (h5, _) => .ok (h5, selfIdx)
        else if op.rank < cur.rank then
          match we.parent with
          | some p => add_operator fuel h p op
          | none =>
            match add_element (newExpression h).1 (newExpression h).2 se.wf with
            | .error e => .error e
            | .ok (h2, _) => add_operator fuel h2 (newExpression h).2 op
        else
          .ok (h, selfIdx)

/-- `Expression.op_and` / `op_or` share this body: add the operator, then add
each element to the returned (possibly different) expression. -/
def opThen (fuel : Nat) (h : Heap) (selfIdx : Nat) (op : Op) (elems : List Nat) :
    Except FiqlErr (Heap × Nat) :=
  match add_operator fuel h selfIdx op with
  | .error e => .error e
  | .ok (h1, e) =>
    elems.foldlM (fun (acc : Heap × Nat) el =>
      match add_element acc.1 acc.2 el with
      | .error er => .error er
      | .ok r => .ok r) (h1, e)

/-- `Expression.op_and`. -/
def op_and (fuel : Nat) (h : Heap) (selfIdx : Nat) (elems : List Nat) :
    Except FiqlErr (Heap × Nat) :=
  opThen fuel h selfIdx .opAnd elems

/-- `Expression.op_or`. -/
def op_or (fuel : Nat) (h : Heap) (selfIdx : Nat) (elems : List Nat) :
    Except FiqlErr (Heap × Nat) :=
  opThen fuel h selfIdx .opOr elems

/-- Modelled from the spec (constraint.py is not under src/): the comparison
mapping table used by `Constraint.to_python`. -/
def comparisonPython (c : String) : String :=
  if c = "==" then "=="
  else if c = "!=" then "!="
  else if c = "=gt=" then ">"
  else if c = "=ge=" then ">="
  else if c = "=lt=" then "<"
  else if c = "=le=" then "<="
  else c

/-- Modelled from the spec: `Constraint.to_python` returns the 3-tuple
`(selector, mapped comparison or None, argument or None)`. -/
def constraintPython (c : ConstraintNode) : PyVal :=
  .pyTuple3 (.pyStr c.selector)
    (match c.comparison with
     | some s => .pyStr (comparisonPython s)
     | none => .pyNone)
    (match c.argument with
     | some s => .pyStr s
     | none => .pyNone)

/-- Modelled from the spec: `Constraint.__str__` renders `selector` alone or
`selector ++ comparison ++ argument`. -/
def constraintStr (c : ConstraintNode) : String :=
  c.selector ++
    (match c.comparison, c.argument with
     | some co, some a => co ++ a
     | _, _ => "")

/-- Combines rendered children, failing if any child rendering failed. -/
def seqOption {α : Type} : List (Option α) → Option (List α)
| [] => some []
| none :: _ => none
| some a :: rest => (seqOption rest).map (fun l => a :: l)

/--
`to_python` on a node (`Expression.to_python` plus the `Constraint` leaf).
The fuel bounds recursion depth over the heap (Python relies on the tree being
finite); `none` means the fuel ran out or the index was not an object.
-/
def to_python : Nat → Heap → Nat → Option PyVal
| 0, _, _ => none
| fuel + 1, h, i =>
  match h[i]? with
  | some (.constraintNode c) => some (constraintPython c)
  | some (.exprNode e) =>
    match e.elements with
    | [] => some .pyNone
    | [x] => to_python fuel h x
    | xs =>
      let op := e.operator.getD .opAnd
      match seqOption (xs.map (to_python fuel h)) with
      | some children => some (pyListOf (.pyStr op.pythonName :: children))
      | none => none
  | none => none

/--
`__str__` on a node (`Expression.__str__` plus the `Constraint` leaf).
The default operator is AND when none was set; the rendering is wrapped in
parentheses exactly when the node has a parent whose effective operator has a
strictly higher precedence rank.
-/
def node_str : Nat → Heap → Nat → Option String
| 0, _, _ => none
| fuel + 1, h, i =>
  match h[i]? with
  | some (.constraintNode c) => some (constraintStr c)
  | some (.exprNode e) =>
    let op := e.operator.getD .opAnd
    match seqOption (e.elements.map (node_str fuel h)) with
    | none => none
    | some strs =>
      let joined := String.intercalate op.symbol strs
      match e.parent with
      | none => some joined
      | some p =>
        match h[p]? with
        | some (.exprNode pe) =>
          if op.rank < (pe.operator.getD .opAnd).rank then
            some ("(" ++ joined ++ ")")
          else
            some joined
        | _ => none
  | none => none

/-! ## Tokenizer

`constants.py` (the `CONSTRAINT_COMP` regex and the lexical classes) is not
under src/.  The definitions below are modelled from the spec (sections 4.3
and 6) and pinned by the repository's `test_regex.py` / `test_parse.py`
expectations: a constraint is `selector (comparison argument)?`, a selector is
a nonempty run of unreserved or percent-encoded characters, a comparison is
`(= ALPHA* | fiql-delim) =`, an argument is a nonempty run of argument
characters, and `CONSTRAINT_COMP.split(s, 1)` searches for the first
constraint occurrence anywhere in the string, returning the text before it as
the preamble.
-/

/-- Modelled from the spec: hexadecimal digit for percent-encoding. -/
def isHexChar (c : Char) : Bool :=
  c.isDigit || (65 ≤ c.toNat && c.toNat ≤ 70) || (97 ≤ c.toNat && c.toNat ≤ 102)

/-- Modelled from the spec: unreserved characters `ALPHA / DIGIT / . _ - ~`. -/
def isUnreservedChar (c : Char) : Bool :=
  c.isAlpha || c.isDigit || c = '.' || c = '_' || c = '-' || c = '~'

/-- Modelled from the spec: FIQL delimiter characters (`test_regex.py` pins
them to the set in the string made of bang, dollar, quote, star, plus). -/
def isFiqlDelim (c : Char) : Bool :=
  c = '!' || c = '$' || c = Char.ofNat 39 || c = '*' || c = '+'

/-- Modelled from the spec: argument characters (unreserved, FIQL delimiter,
colon or equals; percent-encoding is handled by the scanner itself). -/
def isArgChar (c : Char) : Bool :=
  isUnreservedChar c || isFiqlDelim c || c = ':' || c = '='

/-- Modelled from the spec: greedy scan of a run of `plain` characters or
percent-encoded triples, returning the matched run and the rest. -/
def lexRun (plain : Char → Bool) : List Char → List Char × List Char
| [] => ([], [])
| c :: cs =>
  if c = '%' then
    match cs with
    | h1 :: h2 :: cs2 =>
      if isHexChar h1 && isHexChar h2 then
        let r := lexRun plain cs2
        (c :: h1 :: h2 :: r.1, r.2)
      else ([], c :: cs)
    | _ => ([], c :: cs)
  else if plain c then
    let r := lexRun plain cs
    (c :: r.1, r.2)
  else ([], c :: cs)

/-- Modelled from the spec: the comparison lexical class
`(= ALPHA* | fiql-delim) =`. -/
def lexComparison : List Char → Option (List Char × List Char)
| '=' :: cs =>
  let alphas := cs.takeWhile Char.isAlpha
  match cs.drop alphas.length with
  | '=' :: rest => some ('=' :: alphas ++ ['='], rest)
  | _ => none
| c :: '=' :: rest =>
  if isFiqlDelim c then some ([c, '='], rest) else none
| _ => none

/-- Modelled from the spec: try to match one constraint at the head of the
input; the `(comparison argument)` group is dropped when the argument run
would be empty. -/
def tryConstraint (cs : List Char) :
    Option (List Char × Option (List Char) × Option (List Char) × List Char) :=
  let s := lexRun isUnreservedChar cs
  if s.1 = [] then none
  else
    match lexComparison s.2 with
    | some (comp, rest2) =>
      let a := lexRun isArgChar rest2
      if a.1 = [] then some (s.1, none, none, s.2)
      else some (s.1, some comp, some a.1, a.2)
    | none => some (s.1, none, none, s.2)

/-- Modelled from the spec: `CONSTRAINT_COMP.split(s, 1)` semantics — search
for the first position where a constraint matches; everything before it is
the preamble. -/
def findConstraint : List Char →
    List Char × Option (List Char × Option (List Char) × Option (List Char) × List Char)
| [] => ([], none)
| c :: cs =>
  match tryConstraint (c :: cs) with
  | some m => ([], some m)
  | none =>
    let r := findConstraint cs
    (c :: r.1, r.2)

/-- Modelled from the spec: numeric value of a hexadecimal digit. -/
def hexVal (c : Char) : Nat :=
  if c.isDigit then c.toNat - 48
  else if c.toNat ≤ 70 then c.toNat - 55
  else c.toNat - 87

/-- Modelled from the spec: `urllib.parse.unquote_plus` — plus becomes a
space and `%XX` pairs are decoded (an invalid pair keeps the percent sign and
rescans from the next character); the fuel is the input length plus one,
which always suffices since each step consumes at least one character. -/
def unquotePlusGo : Nat → List Char → List Char
| 0, _ => []
| _ + 1, [] => []
| fuel + 1, '+' :: cs => ' ' :: unquotePlusGo fuel cs
| fuel + 1, '%' :: h1 :: h2 :: cs2 =>
  if isHexChar h1 && isHexChar h2 then
    Char.ofNat (16 * hexVal h1 + hexVal h2) :: unquotePlusGo fuel cs2
  else '%' :: unquotePlusGo fuel (h1 :: h2 :: cs2)
| fuel + 1, '%' :: cs => '%' :: unquotePlusGo fuel cs
| fuel + 1, c :: cs => c :: unquotePlusGo fuel cs

/-- Modelled from the spec: `urllib.parse.unquote_plus`. -/
def unquotePlus (s : List Char) : List Char :=
  unquotePlusGo (s.length + 1) s

/-- One tuple yielded by `iter_parse`: preamble, selector, comparison,
argument (the trailing tuple has no selector). -/
structure Token where
  preamble : List Char
  selector : Option String
  comparison : Option String
  argument : Option String
deriving DecidableEq, Repr

/-- `parser.iter_parse`: repeatedly split off the next constraint.  The
selector and argument are percent-decoded; the comparison is kept raw.  The
fuel is `length + 1`, which always suffices since each step consumes at least
one character. -/
def iterParseGo : Nat → List Char → List Token
| 0, _ => []
| fuel + 1, s =>
  if s.isEmpty then []
  else
    match findConstraint s with
    | (pre, none) => [{ preamble := pre, selector := none, comparison := none, argument := none }]
    | (pre, some (sel, comp, arg, rest)) =>
      { preamble := pre,
        selector := some (String.mk (unquotePlus sel)),
        comparison := comp.map String.mk,
        argument := arg.map (fun a => String.mk (unquotePlus a)) } :: iterParseGo fuel rest

/-- `parser.iter_parse` as a list of yielded tuples. -/
def iter_parse (s : List Char) : List Token :=
  iterParseGo (s.length + 1) s

/-! ## Parser (`parser.parse_str_to_expression`) -/

/-- The dynamic type of the parser's `last_element` variable. -/
inductive LastElem where
| noneL
| operatorL (o : Op)
| constraintL
| expressionL
deriving DecidableEq, Repr

/-- Python class name of `last_element`, for error messages. -/
def lastName : LastElem → String
| .noneL => "NoneType"
| .operatorL _ => "Operator"
| .constraintL => "Constraint"
| .expressionL => "Expression"

/-- Whether `last_element` is a `BaseExpression` (a `Constraint` or an
`Expression`). -/
def isBaseExpr : LastElem → Bool
| .constraintL => true
| .expressionL => true
| _ => false

/-- `Operator.__init__`: only `;` and `,` are accepted
(`FiqlObjectException` otherwise). -/
def operatorOfChar (c : Char) : Except FiqlErr Op :=
  if c = ';' then .ok .opAnd
  else if c = ',' then .ok .opOr
  else .error (.objectErr (String.singleton c ++ " is not a valid FIQL operator"))

/-- The parser's loop state: heap, current working expression, nesting level
and `last_element`. -/
structure PState where
  heap : Heap
  expr : Nat
  nesting : Int
  last : LastElem
deriving DecidableEq, Repr

/-- Processing of one preamble character (`parser.py` lines 81-103). -/
def parseChar (fuel : Nat) (c : Char) (st : PState) : Except FiqlErr PState :=
  if c = '(' then
    if isBaseExpr st.last then
      .error (.formatErr (lastName st.last ++ " can not be followed by Expression"))
    else
      match create_nested_expression st.heap st.expr with
      | .error e => .error e
      | .ok (h, sub) =>
        .ok { heap := h, expr := sub, nesting := st.nesting + 1, last := st.last }
  else if c = ')' then
    match get_parent st.heap st.expr with
    | .error e => .error e
    | .ok p =>
      .ok { heap := st.heap, expr := p, nesting := st.nesting - 1, last := .expressionL }
  else
    match has_constraint st.heap st.expr with
    | none => .error .attributeErr
    | some n =>
      if n = 0 then
        .error (.formatErr "Operator proceeding initial Constraint")
      else
        match st.last with
        | .operatorL _ => .error (.formatErr "Operator can not be followed by Operator")
        | _ =>
          match operatorOfChar c with
          | .error e => .error e
          | .ok o =>
            match add_operator fuel st.heap st.expr o with
            | .error e => .error e
            | .ok (h, ex) =>
              .ok { heap := h, expr := ex, nesting := st.nesting, last := .operatorL o }

/-- Processing of the whole preamble, character by character. -/
def parsePreamble (fuel : Nat) : List Char → PState → Except FiqlErr PState
| [], st => .ok st
| c :: cs, st =>
  match parseChar fuel c st with
  | .error e => .error e
  | .ok st2 => parsePreamble fuel cs st2

/-- Processing of one yielded tuple: the preamble, then the selector part
(`parser.py` lines 79-110). -/
def parseToken (fuel : Nat) (t : Token) (st : PState) : Except FiqlErr PState :=
  match parsePreamble fuel t.preamble st with
  | .error e => .error e
  | .ok st2 =>
    match t.selector with
    | none => .ok st2
    | some sel =>
      if isBaseExpr st2.last then
        .error (.formatErr (lastName st2.last ++ " can not be followed by Constraint"))
      else
        let hc := newConstraint st2.heap sel t.comparison t.argument
        match add_element hc.1 st2.expr hc.2 with
        | .error e => .error e
        | .ok (h2, _) =>
          .ok { heap := h2, expr := st2.expr, nesting := st2.nesting, last := .constraintL }

/-- The fold over all yielded tuples. -/
def parseTokens (fuel : Nat) : List Token → PState → Except FiqlErr PState
| [], st => .ok st
| t :: ts, st =>
  match parseToken fuel t st with
  | .error e => .error e
  | .ok st2 => parseTokens fuel ts st2

/-- `parser.parse_str_to_expression`: run the fold from a fresh root, then
check the nesting level and that the working expression has a constraint. -/
def parse_str_to_expression (fuel : Nat) (s : String) : Except FiqlErr (Heap × Nat) :=
  let h0 := newExpression []
  match parseTokens fuel (iter_parse s.data)
      { heap := h0.1, expr := h0.2, nesting := 0, last := .noneL } with
  | .error e => .error e
  | .ok st =>
    if st.nesting ≠ 0 then
      .error (.formatErr "At least one nested expression was not correctly closed")
    else
      match has_constraint st.heap st.expr with
      | none => .error .attributeErr
      | some n =>
        if n = 0 then
          .error (.formatErr ("Parsed string " ++ s ++ " contained no constraint"))
        else
          .ok (st.heap, st.expr)

/-- `to_python` of a successful parse (`none` when the parse failed). -/
def pyOfResult (fuel : Nat) (r : Except FiqlErr (Heap × Nat)) : Option PyVal :=
  match r with
  | .ok (h, i) => to_python fuel h i
  | .error _ => none

/-- `str()` of a successful parse (`none` when the parse failed). -/
def strOfResult (fuel : Nat) (r : Except FiqlErr (Heap × Nat)) : Option String :=
  match r with
  | .ok (h, i) => node_str fuel h i
  | .error _ => none

/-! ## Theorems about the claims -/

deriving instance DecidableEq for Except

/-- Shorthand for the deconstruction of a bare-selector constraint. -/
def pySel (s : String) : PyVal :=
  .pyTuple3 (.pyStr s) .pyNone .pyNone

/--
Claim C1: operator precedence in parsing.  `"a;b,c"` parses to the nested
form `OR(AND(a,b), c)` and `"a,b;c"` parses to `OR(a, AND(b,c))`; the
AND operator (rank 2) binds strictly tighter than OR (rank 1).
-/
theorem c1_operator_precedence :
    pyOfResult 20 (parse_str_to_expression 20 "a;b,c") =
      some (pyListOf [.pyStr "OR",
        pyListOf [.pyStr "AND", pySel "a", pySel "b"],
        pySel "c"]) ∧
    pyOfResult 20 (parse_str_to_expression 20 "a,b;c") =
      some (pyListOf [.pyStr "OR",
        pySel "a",
        pyListOf [.pyStr "AND", pySel "b", pySel "c"]]) ∧
    Op.opOr.rank < Op.opAnd.rank := by
  refine ⟨by decide, by decide, by decide⟩

/--
Claim C7: the parser rejects, with a distinct catchable error and without
returning a tree, an operator before any constraint, two consecutive
operators, a group opening right after a constraint or a closed group, a
constraint right after a closed group, and an input with no constraint at
all.
-/
theorem c7_grammar_violations :
    parse_str_to_expression 20 ";foo==bar" =
      .error (.formatErr "Operator proceeding initial Constraint") ∧
    parse_str_to_expression 20 "foo==bar;,foo==bar" =
      .error (.formatErr "Operator can not be followed by Operator") ∧
    parse_str_to_expression 20 "foo==bar(foo==bar)" =
      .error (.formatErr "Constraint can not be followed by Expression") ∧
    parse_str_to_expression 20 "(foo)(bar)" =
      .error (.formatErr "Expression can not be followed by Expression") ∧
    parse_str_to_expression 20 "(foo==bar)baz" =
      .error (.formatErr "Expression can not be followed by Constraint") ∧
    parse_str_to_expression 20 "" =
      .error (.formatErr "Parsed string  contained no constraint") := by
  refine ⟨by decide, by decide, by decide, by decide, by decide, by decide⟩

/--
Claim C8, counterexample: the claim says both unbalanced-nesting conditions
fail with the same `UnbalancedNesting` error, but a close paren at the
parentless root raises the `FiqlObjectException` missing-parent error from
`get_parent`, which is a different exception than the
`FiqlFormatException` raised for a nonzero depth at end of input.
-/
theorem c8_counterexample :
    parse_str_to_expression 20 "a)" =
      .error (.objectErr "Parent must be of Expression not NoneType") ∧
    parse_str_to_expression 20 "(a" =
      .error (.formatErr "At least one nested expression was not correctly closed") ∧
    FiqlErr.objectErr "Parent must be of Expression not NoneType" ≠
      FiqlErr.formatErr "At least one nested expression was not correctly closed" := by
  refine ⟨by decide, by decide, by decide⟩

/--
Claim C8, amended: a nonzero nesting depth at end of input fails with the
`FiqlFormatException` unbalanced-nesting error, while a close paren reached
when the working expression is the parentless root fails with the distinct
`FiqlObjectException` missing-parent error; balanced inputs pass both checks.
-/
theorem c8_error_classification :
    parse_str_to_expression 20 "(a" =
      .error (.formatErr "At least one nested expression was not correctly closed") ∧
    parse_str_to_expression 20 "((a)" =
      .error (.formatErr "At least one nested expression was not correctly closed") ∧
    parse_str_to_expression 20 "a)" =
      .error (.objectErr "Parent must be of Expression not NoneType") ∧
    parse_str_to_expression 20 "(a))" =
      .error (.objectErr "Parent must be of Expression not NoneType") ∧
    strOfResult 20 (parse_str_to_expression 20 "(a)") = some "a" := by
  refine ⟨by decide, by decide, by decide, by decide, by decide⟩

/--
Claim C9: refuted on the code.  On the valid input `"a,b;c;(d,e)"` the
parser returns normally, but the returned `Expression` is the nested AND
fragment (heap index 3) whose parent is the original root (index 0), not a
parentless root; its serialization `"b;c;(d,e)"` has lost the leading
disjunct `a`.  The group opener was processed while the working expression's
active fragment was a proper descendant, so the new group was attached below
the fragment and the closing paren ascended only to the fragment.
-/
theorem c9_returns_non_root :
    (parse_str_to_expression 20 "a,b;c;(d,e)").map
        (fun r => (r.2, (getExpr r.1 r.2).map ExprNode.parent)) =
      .ok (3, some (some 0)) ∧
    strOfResult 20 (parse_str_to_expression 20 "a,b;c;(d,e)") = some "b;c;(d,e)" := by
  refine ⟨by decide, by decide⟩

/--
Delegation cycle in `add_operator`: when the working fragment of `i` carries
the AND operator and its parent is `i` itself (the state produced by the
implicit-tightening branch), adding OR delegates from `i` back to `i` with an
unchanged heap, so the recursion never terminates: every fuel is exhausted.
-/
theorem cycle_lemma (h : Heap) (i : Nat) (se we : ExprNode)
    (h1 : getExpr h i = some se) (h2 : getExpr h se.wf = some we)
    (h3 : we.operator = some .opAnd) (h4 : we.parent = some i) :
    ∀ fuel, add_operator fuel h i .opOr = .error .recursionErr := by
  intro fuel
  induction fuel with
  | zero => rfl
  | succ n ih =>
    simp [add_operator, h1, h2, h3, h4, Op.rank, ih]

/-- Every parse failure is determined by the token fold failing. -/
theorem parse_err (fuel : Nat) (s : String) (e : FiqlErr)
    (hk : parseTokens fuel (iter_parse s.data)
      { heap := (newExpression []).1, expr := (newExpression []).2,
        nesting := 0, last := .noneL } = .error e) :
    parse_str_to_expression fuel s = .error e := by
  unfold parse_str_to_expression
  simp only [hk]

/--
Claim C2: refuted on the code.  The input `"(a;b,c)"` is valid under the
spec grammar, but parsing it raises the missing-parent `FiqlObjectException`
for every recursion budget: inside the group the OR operator finds the
fragment operator AND and delegates to the fragment's parent, escaping the
explicit group, so the closing paren is processed at the parentless root.
Hence it is not the case that every valid FIQL input parses successfully and
round-trips.
-/
theorem c2_valid_input_rejected :
    ∀ fuel, parse_str_to_expression (fuel + 2) "(a;b,c)" =
      .error (.objectErr "Parent must be of Expression not NoneType") := by
  intro fuel
  exact parse_err (fuel + 2) "(a;b,c)" _ rfl

/-- The heap after parsing `"a,b;c"` (also reached after the first three
tokens of `"a,b;c,d"`): the root 0 holds `OR` with working fragment 3, and
fragment 3 holds `AND` with parent 0 — the delegation cycle configuration. -/
def cycleHeap : Heap :=
  [.exprNode { parent := none, elements := [1, 3], operator := some .opOr, wf := 3 },
   .constraintNode { selector := "a", comparison := none, argument := none, parent := some 0 },
   .constraintNode { selector := "b", comparison := none, argument := none, parent := some 3 },
   .exprNode { parent := some 0, elements := [2, 4], operator := some .opAnd, wf := 3 },
   .constraintNode { selector := "c", comparison := none, argument := none, parent := some 3 }]

/--
Claim C3: refuted on the code.  On the valid input `"a,b;c,d"` the final OR
is added while the root's working fragment is the AND sub-expression whose
parent is the root itself, so `add_operator` delegates to the parent — the
very receiver — forever: for every recursion budget the parse ends in the
modelled `RecursionError`, never in a tree or a Fiql exception, contradicting
termination with work bounded by the input length.
-/
theorem c3_parser_diverges :
    ∀ fuel, parse_str_to_expression fuel "a,b;c,d" = .error .recursionErr := by
  intro fuel
  rcases fuel with _ | fuel
  · decide
  rcases fuel with _ | n
  · decide
  have hcyc : add_operator (n + 1 + 1) cycleHeap 0 .opOr = .error .recursionErr :=
    cycle_lemma cycleHeap 0 _ _ rfl rfl rfl rfl (n + 1 + 1)
  have hc : has_constraint cycleHeap 0 = some 2 := rfl
  have h4tok : parseToken (n + 1 + 1)
      { preamble := [','], selector := some "d", comparison := none, argument := none }
      { heap := cycleHeap, expr := 0, nesting := 0, last := .constraintL } =
      .error .recursionErr := by
    simp [parseToken, parsePreamble, parseChar, hc, operatorOfChar, hcyc]
  have hpre : parseTokens (n + 1 + 1) (iter_parse "a,b;c,d".data)
      { heap := (newExpression []).1, expr := (newExpression []).2,
        nesting := 0, last := .noneL } =
      parseTokens (n + 1 + 1)
        [{ preamble := [','], selector := some "d", comparison := none, argument := none }]
        { heap := cycleHeap, expr := 0, nesting := 0, last := .constraintL } := rfl
  exact parse_err (n + 1 + 1) "a,b;c,d" _
    (hpre.trans (by simp [parseTokens, h4tok]))

/-- A successful `getExpr` read implies the index is in range. -/
theorem getExpr_some_lt {h : Heap} {i : Nat} {e : ExprNode}
    (hx : getExpr h i = some e) : i < h.length := by
  unfold getExpr at hx
  rcases hh : h[i]? with _ | n <;> rw [hh] at hx
  · cases hx
  · exact (List.getElem?_eq_some_iff.mp hh).1

/-- A successful `getExpr` read spells out the underlying cell. -/
theorem getExpr_eq {h : Heap} {i : Nat} {e : ExprNode}
    (hx : getExpr h i = some e) : h[i]? = some (.exprNode e) := by
  unfold getExpr at hx
  rcases hh : h[i]? with _ | n <;> rw [hh] at hx
  · cases hx
  · cases n with
    | constraintNode c => cases hx
    | exprNode e2 => cases hx; rfl

/-- Reading the freshly appended expression cell. -/
theorem getExpr_concat (h : Heap) (e : ExprNode) :
    getExpr (h ++ [.exprNode e]) h.length = some e := by
  unfold getExpr
  rw [List.getElem?_concat_length]

/-- Reading an old cell after an append. -/
theorem getExpr_append_lt {h : Heap} {i : Nat} (t : List Node) (hi : i < h.length) :
    getExpr (h ++ t) i = getExpr h i := by
  unfold getExpr
  rw [List.getElem?_append_left hi]

/-- Reading an untouched cell after a `List.set`. -/
theorem getExpr_set_ne {h : Heap} {i j : Nat} (n : Node) (hij : i ≠ j) :
    getExpr (h.set i n) j = getExpr h j := by
  unfold getExpr
  rw [List.getElem?_set_ne hij]

/-- Reading the written expression cell after a `List.set`. -/
theorem getExpr_set_self {h : Heap} {i : Nat} (e : ExprNode) (hi : i < h.length) :
    getExpr (h.set i (.exprNode e)) i = some e := by
  unfold getExpr
  rw [List.getElem?_set_self hi]

/--
Claim C4, counterexample: the state built by
`Expression().add_element(a).op_or(b).op_and(c)` (exactly as the parser
builds it for `"a,b;c"`) has the root's working fragment holding AND with the
root as its parent; calling `add_operator` with the strictly lower OR then
never returns for any recursion budget — the modelled `RecursionError` — so
the lower-precedence case does not always return a new top-level Expression.
-/
theorem c4_counterexample :
    (do
      let p0 := newExpression []
      let p1 := newConstraint p0.1 "a" none none
      let r1 ← add_element p1.1 p0.2 p1.2
      let p2 := newConstraint r1.1 "b" none none
      let r2 ← op_or 9 p2.1 r1.2 [p2.2]
      let p3 := newConstraint r2.1 "c" none none
      op_and 9 p3.1 r2.2 [p3.2] : Except FiqlErr (Heap × Nat)) =
      .ok ([.exprNode { parent := none, elements := [1, 4], operator := some .opOr, wf := 4 },
            .constraintNode { selector := "a", comparison := none, argument := none,
                              parent := some 0 },
            .constraintNode { selector := "b", comparison := none, argument := none,
                              parent := some 4 },
            .constraintNode { selector := "c", comparison := none, argument := none,
                              parent := some 4 },
            .exprNode { parent := some 0, elements := [2, 3], operator := some .opAnd,
                        wf := 4 }], 0) ∧
    ∀ fuel, add_operator fuel
      [.exprNode { parent := none, elements := [1, 4], operator := some .opOr, wf := 4 },
       .constraintNode { selector := "a", comparison := none, argument := none,
                         parent := some 0 },
       .constraintNode { selector := "b", comparison := none, argument := none,
                         parent := some 4 },
       .constraintNode { selector := "c", comparison := none, argument := none,
                         parent := some 4 },
       .exprNode { parent := some 0, elements := [2, 3], operator := some .opAnd,
                   wf := 4 }] 0 .opOr = .error .recursionErr := by
  refine ⟨by decide, ?_⟩
  exact cycle_lemma _ 0 _ _ rfl rfl rfl rfl

/--
Claim C4, amended: when `add_operator` receives a strictly lower-precedence
operator and the active fragment has no parent, it returns a newly
synthesized root Expression — a fresh node, never the original receiver —
whose sole element is the former active fragment and whose operator is the
new operator; when the active fragment has a parent, the call delegates to
that parent and, in the delegation-cycle state produced by implicit
tightening, never returns (see the counterexample).
-/
theorem c4_lower_precedence_new_root (fuel : Nat) (h : Heap) (i : Nat) (op cur : Op)
    (se we : ExprNode)
    (hse : getExpr h i = some se)
    (hwe : getExpr h se.wf = some we)
    (hcur : we.operator = some cur)
    (hlt : op.rank < cur.rank)
    (hnp : we.parent = none) :
    ∃ h2, add_operator (fuel + 2) h i op = .ok (h2, h.length) ∧
      i ≠ h.length ∧
      getExpr h2 h.length =
        some { parent := none, elements := [se.wf], operator := some op,
               wf := h.length } := by
  have hiLt : i < h.length := getExpr_some_lt hse
  have hwfLt : se.wf < h.length := getExpr_some_lt hwe
  have g1 : getExpr (h ++ [Node.exprNode ⟨none, [], none, h.length⟩]) h.length =
      some ⟨none, [], none, h.length⟩ :=
    getExpr_concat h _
  have g2 : (h ++ [Node.exprNode ⟨none, [], none, h.length⟩])[se.wf]? =
      some (.exprNode we) := by
    rw [List.getElem?_append_left hwfLt]
    exact getExpr_eq hwe
  refine ⟨(((h ++ [Node.exprNode ⟨none, [], none, h.length⟩]).set se.wf
      (.exprNode { we with parent := some h.length })).set h.length
        (.exprNode ⟨none, [] ++ [se.wf], none, h.length⟩)).set h.length
          (.exprNode ⟨none, [] ++ [se.wf], some op, h.length⟩),
    ?_, Nat.ne_of_lt hiLt, ?_⟩
  · simp only [add_operator, hse, hwe, hcur]
    rw [if_neg (Nat.lt_asymm hlt), if_pos hlt, hnp]
    simp only [newExpression, add_element, g1, set_parent, getExpr_eq g1, g2,
      nodeWithParent]
    have g3 : getExpr ((h ++ [Node.exprNode ⟨none, [], none, h.length⟩]).set se.wf
          (.exprNode { we with parent := some h.length })) h.length =
        some ⟨none, [], none, h.length⟩ := by
      rw [getExpr_set_ne _ (Nat.ne_of_lt hwfLt), g1]
    simp only [g3, setExpr]
    have g4 : getExpr (((h ++ [Node.exprNode ⟨none, [], none, h.length⟩]).set se.wf
          (.exprNode { we with parent := some h.length })).set h.length
            (.exprNode ⟨none, [] ++ [se.wf], none, h.length⟩)) h.length =
        some ⟨none, [] ++ [se.wf], none, h.length⟩ := by
      apply getExpr_set_self
      simp
    simp only [add_operator, g4, setExpr]
    rw [hcur]
  · rw [getExpr_set_self _ (by simp)]
    simp

/-- Witness for the amended C4 theorem at a concrete one-node heap: the root
already holds AND, adding OR synthesizes a fresh root at index 1 whose sole
element is the old root and whose operator is OR. -/
theorem c4_lower_precedence_new_root_witness :
    ∃ h2, add_operator 2 [Node.exprNode ⟨none, [], some .opAnd, 0⟩] 0 .opOr =
        .ok (h2, 1) ∧
      (0 : Nat) ≠ 1 ∧
      getExpr h2 1 = some ⟨none, [0], some .opOr, 1⟩ :=
  c4_lower_precedence_new_root 0 [Node.exprNode ⟨none, [], some .opAnd, 0⟩] 0 .opOr
    .opAnd ⟨none, [], some .opAnd, 0⟩ ⟨none, [], some .opAnd, 0⟩ rfl rfl rfl
    (by decide) rfl

/--
Claim C5: `__str__` of an `Expression` joins the children with the effective
operator symbol and wraps the result in parentheses iff the node has a parent
whose effective operator (its own, or AND by default) has a strictly higher
precedence rank than this node's effective operator; consequently
`"a;(b,c)"` serializes back to itself and `"((a))"` serializes to `"a"`.
-/
theorem c5_paren_rule :
    (∀ (fuel : Nat) (h : Heap) (i : Nat) (e : ExprNode) (strs : List String)
      (p : Nat) (pe : ExprNode),
      h[i]? = some (.exprNode e) →
      seqOption (e.elements.map (node_str fuel h)) = some strs →
      e.parent = some p →
      h[p]? = some (.exprNode pe) →
      node_str (fuel + 1) h i =
        some (if (e.operator.getD .opAnd).rank < (pe.operator.getD .opAnd).rank then
          "(" ++ String.intercalate (e.operator.getD .opAnd).symbol strs ++ ")"
        else
          String.intercalate (e.operator.getD .opAnd).symbol strs)) ∧
    (∀ (fuel : Nat) (h : Heap) (i : Nat) (e : ExprNode) (strs : List String),
      h[i]? = some (.exprNode e) →
      seqOption (e.elements.map (node_str fuel h)) = some strs →
      e.parent = none →
      node_str (fuel + 1) h i =
        some (String.intercalate (e.operator.getD .opAnd).symbol strs)) ∧
    strOfResult 20 (parse_str_to_expression 20 "a;(b,c)") = some "a;(b,c)" ∧
    strOfResult 20 (parse_str_to_expression 20 "((a))") = some "a" := by
  refine ⟨?_, ?_, by decide, by decide⟩
  · intro fuel h i e strs p pe hi hseq hp hpe
    simp only [node_str, hi, hseq, hp, hpe]
    split <;> rfl
  · intro fuel h i e strs hi hseq hp
    simp only [node_str, hi, hseq, hp]

/-- Witness for C5 at a concrete heap: node 1 is an OR child of an AND parent,
so it is parenthesized; the root is rendered bare. -/
theorem c5_paren_rule_witness :
    node_str 1 [Node.exprNode ⟨none, [1], some .opAnd, 0⟩,
      Node.exprNode ⟨some 0, [], some .opOr, 1⟩] 1 = some "()" ∧
    node_str 1 [Node.exprNode ⟨none, [], some .opOr, 0⟩] 0 = some "" := by
  constructor
  · exact c5_paren_rule.1 0 [Node.exprNode ⟨none, [1], some .opAnd, 0⟩,
      Node.exprNode ⟨some 0, [], some .opOr, 1⟩] 1 ⟨some 0, [], some .opOr, 1⟩ [] 0
      ⟨none, [1], some .opAnd, 0⟩ rfl rfl rfl rfl
  · exact c5_paren_rule.2.1 0 [Node.exprNode ⟨none, [], some .opOr, 0⟩] 0
      ⟨none, [], some .opOr, 0⟩ [] rfl rfl rfl

/--
Claim C6: `to_python` of an `Expression` returns `None` for an empty element
list, the sole element's own deconstruction for a singleton list (collapsing
single-child wrapping at every depth, since the rule applies recursively),
and otherwise the operator display name followed by each child's
deconstruction in order; the display name defaults to AND and the `__str__`
join symbol defaults to `;` when no operator was ever set, as the concrete
three-constraint expression built without any operator shows.
-/
theorem c6_to_python_shape :
    (∀ (fuel : Nat) (h : Heap) (i : Nat) (e : ExprNode),
      h[i]? = some (.exprNode e) → e.elements = [] →
      to_python (fuel + 1) h i = some .pyNone) ∧
    (∀ (fuel : Nat) (h : Heap) (i : Nat) (e : ExprNode) (x : Nat),
      h[i]? = some (.exprNode e) → e.elements = [x] →
      to_python (fuel + 1) h i = to_python fuel h x) ∧
    (∀ (fuel : Nat) (h : Heap) (i : Nat) (e : ExprNode) (x y : Nat) (rest : List Nat)
      (children : List PyVal),
      h[i]? = some (.exprNode e) → e.elements = x :: y :: rest →
      seqOption ((x :: y :: rest).map (to_python fuel h)) = some children →
      to_python (fuel + 1) h i =
        some (pyListOf (.pyStr (e.operator.getD .opAnd).pythonName :: children))) ∧
    Op.opAnd.pythonName = "AND" ∧ Op.opAnd.symbol = ";" ∧
    (do
      let p0 := newExpression []
      let p1 := newConstraint p0.1 "a" (some "==") (some "wee")
      let r1 ← add_element p1.1 p0.2 p1.2
      let p2 := newConstraint r1.1 "bar" (some "=gt=") (some "45")
      let r2 ← add_element p2.1 r1.2 p2.2
      let p3 := newConstraint r2.1 "key" none none
      let r3 ← add_element p3.1 r2.2 p3.2
      pure (node_str 10 r3.1 r3.2, to_python 10 r3.1 r3.2) :
        Except FiqlErr (Option String × Option PyVal)) =
      .ok (some "a==wee;bar=gt=45;key",
        some (pyListOf [.pyStr "AND",
          .pyTuple3 (.pyStr "a") (.pyStr "==") (.pyStr "wee"),
          .pyTuple3 (.pyStr "bar") (.pyStr ">") (.pyStr "45"),
          pySel "key"])) := by
  refine ⟨?_, ?_, ?_, rfl, rfl, by decide⟩
  · intro fuel h i e hi he
    simp only [to_python, hi, he]
  · intro fuel h i e x hi he
    simp only [to_python, hi, he]
  · intro fuel h i e x y rest children hi he hseq
    simp only [to_python, hi, he, hseq]

/-- Witness for C6 at concrete heaps: an empty expression deconstructs to
`None`, a singleton collapses to its child, and a two-element expression
lists the operator display name first. -/
theorem c6_to_python_shape_witness :
    to_python 1 [Node.exprNode ⟨none, [], none, 0⟩] 0 = some .pyNone ∧
    to_python 2 [Node.exprNode ⟨none, [1], none, 0⟩,
      Node.constraintNode ⟨"a", none, none, some 0⟩] 0 =
      to_python 1 [Node.exprNode ⟨none, [1], none, 0⟩,
        Node.constraintNode ⟨"a", none, none, some 0⟩] 1 ∧
    to_python 2 [Node.exprNode ⟨none, [1, 2], none, 0⟩,
      Node.constraintNode ⟨"a", none, none, some 0⟩,
      Node.constraintNode ⟨"b", none, none, some 0⟩] 0 =
      some (pyListOf [.pyStr "AND", pySel "a", pySel "b"]) := by
  refine ⟨?_, ?_, ?_⟩
  · exact c6_to_python_shape.1 0 _ 0 ⟨none, [], none, 0⟩ rfl rfl
  · exact c6_to_python_shape.2.1 1 _ 0 ⟨none, [1], none, 0⟩ 1 rfl rfl
  · exact c6_to_python_shape.2.2.1 1 _ 0 ⟨none, [1, 2], none, 0⟩ 1 2 []
      [pySel "a", pySel "b"] rfl rfl rfl

/-- `set_parent` can fail, but never with the pop `IndexError`. -/
theorem set_parent_ne_indexErr (h : Heap) (c p : Nat) :
    set_parent h c p ≠ .error .indexErr := by
  unfold set_parent
  split
  · split <;> simp
  · simp

/-- `add_element` can fail, but never with the pop `IndexError`. -/
theorem add_element_ne_indexErr (h : Heap) (s e : Nat) :
    add_element h s e ≠ .error .indexErr := by
  unfold add_element
  split
  · simp
  · split
    · next er heq =>
      intro hc
      injection hc with he
      subst he
      exact set_parent_ne_indexErr _ _ _ heq
    · split <;> simp

/-- `create_nested_expression` can fail, but never with the pop `IndexError`. -/
theorem create_nested_ne_indexErr (h : Heap) (f : Nat) :
    create_nested_expression h f ≠ .error .indexErr := by
  unfold create_nested_expression
  split
  · rename_i er heq
    intro hc
    injection hc with he
    subst he
    exact add_element_ne_indexErr _ _ _ heq
  · simp

/-- `set_parent` only changes a parent field: every expression cell keeps its
operator, working-fragment pointer and elements. -/
theorem set_parent_preserves {h : Heap} {c p : Nat} {h1 : Heap}
    (hs : set_parent h c p = .ok h1) (j : Nat) (r : ExprNode)
    (hj : getExpr h j = some r) :
    ∃ r1, getExpr h1 j = some r1 ∧ r1.operator = r.operator ∧ r1.wf = r.wf ∧
      r1.elements = r.elements := by
  unfold set_parent at hs
  split at hs
  · split at hs
    · cases hs
      rename_i nc hc
      by_cases hjc : j = c
      · subst hjc
        have hnc : nc = .exprNode r := by
          have h2 := getExpr_eq hj
          rw [hc] at h2
          exact Option.some.inj h2
        subst hnc
        refine ⟨{ r with parent := some p }, ?_, rfl, rfl, rfl⟩
        exact getExpr_set_self _ (getExpr_some_lt hj)
      · refine ⟨r, ?_, rfl, rfl, rfl⟩
        rw [getExpr_set_ne _ (Ne.symm hjc)]
        exact hj
    · cases hs
  · cases hs

/-- `add_element` only reparents the element and appends to the working
fragment: every expression cell keeps its operator and working-fragment
pointer. -/
theorem add_element_preserves {h : Heap} {s e : Nat} {h2 : Heap} {s2 : Nat}
    (ha : add_element h s e = .ok (h2, s2)) (j : Nat) (r : ExprNode)
    (hj : getExpr h j = some r) :
    ∃ r2, getExpr h2 j = some r2 ∧ r2.operator = r.operator ∧ r2.wf = r.wf := by
  unfold add_element at ha
  split at ha
  · cases ha
  · rename_i se hs
    split at ha
    · cases ha
    · rename_i h1 hsp
      split at ha
      · cases ha
      · rename_i we hw
        cases ha
        obtain ⟨r1, hr1, hop, hwf, _⟩ := set_parent_preserves hsp j r hj
        simp only [setExpr]
        by_cases hjw : j = se.wf
        · subst hjw
          rw [hw] at hr1
          injection hr1 with h12
          subst h12
          refine ⟨{ we with elements := we.elements ++ [e] }, ?_, hop, hwf⟩
          exact getExpr_set_self _ (getExpr_some_lt hw)
        · refine ⟨r1, ?_, hop, hwf⟩
          rw [getExpr_set_ne _ (Ne.symm hjw)]
          exact hr1

/-- A successful `create_nested_expression` returns the freshly allocated
index (the old heap length) and the fresh cell still has no operator and
points to itself as working fragment. -/
theorem create_nested_spec {h : Heap} {f : Nat} {h2 : Heap} {s : Nat}
    (hc : create_nested_expression h f = .ok (h2, s)) :
    s = h.length ∧ ∃ r, getExpr h2 s = some r ∧ r.operator = none ∧ r.wf = h.length := by
  unfold create_nested_expression at hc
  split at hc
  · cases hc
  · rename_i h2x s2x ha
    cases hc
    refine ⟨rfl, ?_⟩
    have hfresh : getExpr (newExpression h).1 (newExpression h).2 =
        some ⟨none, [], none, h.length⟩ := getExpr_concat h _
    obtain ⟨r2, hr2, hop, hwf⟩ := add_element_preserves ha (newExpression h).2 _ hfresh
    exact ⟨r2, hr2, hop, hwf⟩

/-- Adding the OR operator never pops an element, at any fuel, on any heap:
the tightening branch would need an operator of rank below OR's, and none
exists, so an OR insertion can never raise the pop `IndexError`. -/
theorem add_operator_or_ne_indexErr :
    ∀ (fuel : Nat) (h : Heap) (i : Nat),
      add_operator fuel h i .opOr ≠ .error .indexErr := by
  intro fuel
  induction fuel with
  | zero => intro h i; simp [add_operator]
  | succ n ih =>
    intro h i
    unfold add_operator
    split
    · simp
    · next se hse =>
      split
      · simp
      · next we hwe =>
        split
        · simp
        · next cur hcur =>
          rw [if_neg (by cases cur <;> decide)]
          split
          · split
            · next p hp => exact ih h p
            · split
              · next er heq =>
                intro hc
                injection hc with he
                subst he
                exact add_element_ne_indexErr _ _ _ heq
              · next pr heq => exact ih _ _
          · simp

/--
Claim C10: detach-step safety.  The pop in the higher-precedence branch of
`add_operator` can only fail when the active fragment holds the OR operator
with an empty element list; under the parser's guard — an operator character
is only processed when `has_constraint()` is nonzero, so an OR-holding
fragment is never empty — no call, at any fuel, with any operator, returns
the pop `IndexError`.  Invoked directly on an `Expression` whose fragment
has the lower-precedence OR operator but no elements
(`Expression().op_or()` followed by `op_and(c)`), the call raises the plain
`IndexError`, not a Fiql exception.
-/
theorem c10_pop_safety :
    (∀ (fuel : Nat) (h : Heap) (i : Nat) (op : Op) (se we : ExprNode),
      getExpr h i = some se →
      getExpr h se.wf = some we →
      (we.operator = some .opOr → we.elements ≠ []) →
      add_operator fuel h i op ≠ .error .indexErr) ∧
    (do
      let p0 := newExpression []
      let r1 ← op_or 9 p0.1 p0.2 []
      let p1 := newConstraint r1.1 "c" none none
      op_and 9 p1.1 r1.2 [p1.2] : Except FiqlErr (Heap × Nat)) =
      .error .indexErr := by
  refine ⟨?_, by decide⟩
  intro fuel h i op se we hse hwe hguard
  cases op with
  | opOr => exact add_operator_or_ne_indexErr fuel h i
  | opAnd =>
    cases fuel with
    | zero => simp [add_operator]
    | succ n =>
      unfold add_operator
      split
      · simp
      · rename_i se' hse'
        rw [hse] at hse'
        cases Option.some.inj hse'
        split
        · simp
        · rename_i we' hwe'
          rw [hwe] at hwe'
          cases Option.some.inj hwe'
          split
          · simp
          · rename_i cur hcur
            split
            · -- tightening branch: the fragment operator is strictly below AND
              have hcuror : cur = .opOr := by
                rename_i hlt
                cases cur
                · exact absurd hlt (by decide)
                · rfl
              subst hcuror
              have hne : we.elements ≠ [] := hguard hcur
              split
              · rename_i hL
                rw [List.getLast?_eq_none_iff] at hL
                exact absurd hL hne
              · rename_i lastC hL
                split
                · rename_i er hcn
                  intro hc
                  injection hc with he
                  subst he
                  exact create_nested_ne_indexErr _ _ hcn
                · rename_i h2 sub hcn
                  split
                  · simp
                  · rename_i se2 hg2
                    split
                    · rename_i er2 hae
                      intro hc
                      injection hc with he
                      subst he
                      exact add_element_ne_indexErr _ _ _ hae
                    · rename_i h4 s4 hae
                      split
                      · rename_i er3 hro
                        intro hc
                        injection hc with he
                        subst he
                        obtain ⟨hsub, r2, hr2, hop2, hwf2⟩ := create_nested_spec hcn
                        have hsubLen : sub = h.length := by
                          simpa [setExpr] using hsub
                        have hisub : i ≠ sub := by
                          have hiLt : i < h.length := getExpr_some_lt hse
                          omega
                        have hg3 : getExpr (setExpr h2 i { se2 with wf := sub }) sub =
                            some r2 := by
                          simp only [setExpr]
                          rw [getExpr_set_ne _ hisub]
                          exact hr2
                        obtain ⟨r4, hr4, hop4, hwf4⟩ := add_element_preserves hae sub r2 hg3
                        have hwfsub : r4.wf = sub := by
                          rw [hwf4, hwf2]
                          simpa [setExpr] using hsub.symm
                        have hopn : r4.operator = none := by rw [hop4, hop2]
                        cases n with
                        | zero => simp [add_operator] at hro
                        | succ m =>
                          simp only [add_operator, hr4, hwfsub, hopn] at hro
                          cases hro
                      · simp
            · split
              · -- loosening branch is unreachable when adding AND
                rename_i hnlt hlt
                cases cur
                · exact absurd hlt (by decide)
                · exact absurd (by decide : Op.opOr.rank < Op.opAnd.rank) hnlt
              · simp

/-- Witness for C10 at a concrete heap: the root holds OR with one element,
exactly the guarded parser state, and adding AND does not raise the pop
`IndexError`. -/
theorem c10_pop_safety_witness :
    add_operator 5 [Node.exprNode ⟨none, [1], some .opOr, 0⟩,
      Node.constraintNode ⟨"a", none, none, some 0⟩] 0 .opAnd ≠
      .error .indexErr :=
  c10_pop_safety.1 5 [Node.exprNode ⟨none, [1], some .opOr, 0⟩,
    Node.constraintNode ⟨"a", none, none, some 0⟩] 0 .opAnd
    ⟨none, [1], some .opOr, 0⟩ ⟨none, [1], some .opOr, 0⟩ rfl rfl (by decide)

end Fiql
